import Mathlib

/-
Shallow embedding of the UniRep core Synchronizer
(src/packages/core/src/Synchronizer.ts) and proofs about it.

Modelling conventions:
- Field elements and hashes are Nat (the TS code stores them as decimal
  strings; equality of canonical decimal strings coincides with Nat
  equality).
- The database is a record of lists of rows, one list per collection.
  findOne is List.find? (first match in insertion order), findMany with
  a filter is List.filter, count is List.countP, create appends,
  update/delete map/filter the list.  Handler reads go against the
  pre-transaction store (the TS handlers read from this._db while the
  writes are batched on the TransactionDB and applied in order at
  commit); the embedding therefore computes every read from the input
  store and applies the queued writes sequentially to produce the output
  store.
- The external cryptographic primitives (Poseidon hashLeftRight, the
  attestation hash, computeInitUserStateRoot, the incremental and sparse
  Merkle trees) are out of scope per the spec; they are modelled as
  explicit function parameters (H, hash5, initRoot) and by concrete
  Merkle-root computations parameterised by H.
- The zk prover is an external collaborator; its verdict enters each
  proof-event handler as a Bool parameter isValid.
- Fallible handlers return Except SyncErr; a thrown TS exception is
  Except.error (the wrapping transaction then aborts), an early
  `return` after console.log is Except.ok with the unchanged state.
-/

namespace Unirep

/-- Errors thrown by handlers (TS `throw new Error(...)` and TypeErrors). -/
inductive SyncErr
  | epochMismatch
  | epochOutOfRange
  | epochKeyRange
  | epochKeyIsSealed
  | proofNotFound
  | fromProofNotFound
  | noTransitionProof
  | nullDeref
  | multipleUnsealed
deriving DecidableEq, Repr

/-- Epoch row: `{ number, sealed, epochRoot? }`. -/
structure EpochRow where
  number : Nat
  sealed : Bool
  epochRoot : Option Nat
deriving DecidableEq, Repr

/-- GSTLeaf row. -/
structure GSTLeafRow where
  epoch : Nat
  index : Nat
  hash : Nat
  transactionHash : Nat
deriving DecidableEq, Repr

/-- GSTRoot row. -/
structure GSTRootRow where
  epoch : Nat
  root : Nat
deriving DecidableEq, Repr

/-- EpochKey row. -/
structure EpochKeyRow where
  epoch : Nat
  key : Nat
deriving DecidableEq, Repr

/-- Attestation row; `valid` starts unset (`none`). -/
structure AttestationRow where
  epoch : Nat
  epochKey : Nat
  index : Nat
  transactionHash : Nat
  attester : Nat
  proofIndex : Nat
  attesterId : Nat
  posRep : Nat
  negRep : Nat
  graffiti : Nat
  signUp : Bool
  hash : Nat
  valid : Option Bool
deriving DecidableEq, Repr

/-- Nullifier row. -/
structure NullifierRow where
  epoch : Nat
  nullifier : Nat
  confirmed : Bool
deriving DecidableEq, Repr

/-- The event tag stored on a Proof row. -/
inductive ProofEventType
  | indexedEpochKeyProof
  | indexedReputationProof
  | indexedUserSignedUpProof
  | indexedStartedTransitionProof
  | indexedProcessedAttestationsProof
  | indexedUserStateTransitionProof
deriving DecidableEq, Repr

/-- Proof row.  Fields a given handler does not write are `none` / `[]`
(undefined in the TS row). -/
structure ProofRow where
  index : Nat
  epoch : Option Nat
  publicSignals : List Nat
  proof : List Nat
  valid : Bool
  spent : Bool
  blindedUserState : Option Nat
  blindedHashChain : Option Nat
  outputBlindedUserState : Option Nat
  outputBlindedHashChain : Option Nat
  inputBlindedUserState : Option Nat
  globalStateTree : Option Nat
  proofIndexRecords : List Nat
  transactionHash : Nat
  event : ProofEventType
deriving DecidableEq, Repr

/-- The persisted record set. -/
structure Store where
  epochs : List EpochRow
  gstLeaves : List GSTLeafRow
  gstRoots : List GSTRootRow
  epochKeys : List EpochKeyRow
  attestations : List AttestationRow
  nullifiers : List NullifierRow
  proofs : List ProofRow
deriving DecidableEq, Repr

/-- Synchronizer state: the store plus the in-memory GST for the current
epoch, represented by its list of inserted leaves. -/
structure Sync where
  store : Store
  memGST : List Nat
deriving DecidableEq, Repr

/-- findOne Epoch orderBy number desc: the first row attaining the
maximal `number` (insertion order breaks ties). -/
def maxByNumber (l : List EpochRow) : Option EpochRow :=
  l.foldl
    (fun acc e =>
      match acc with
      | none => some e
      | some m => if m.number < e.number then some e else acc)
    none

/-- loadCurrentEpoch: highest-numbered Epoch row, defaulting to
`{number := 1, sealed := false}`. -/
def loadCurrentEpoch (store : Store) : EpochRow :=
  match maxByNumber store.epochs with
  | some e => e
  | none => { number := 1, sealed := false, epochRoot := none }

/-- nullifierExist: count of Nullifier rows with the value, as a Bool
(no `confirmed` filter). -/
def nullifierExist (store : Store) (v : Nat) : Bool :=
  store.nullifiers.countP (fun n => n.nullifier == v) != 0

/-- Number of decimal digits of n: the length of the string produced by
JS template interpolation of a non-negative integer. -/
def decimalLen (n : Nat) : Nat :=
  if h : n < 10 then 1 else decimalLen (n / 10) + 1
decreasing_by exact Nat.div_lt_self (by omega) (by omega)

/-- The numeric value of the decimal string of `a` concatenated with the
decimal string of `b`. -/
def catNum (a b : Nat) : Nat :=
  a * 10 ^ decimalLen b + b

/-- The Attestation `index`: the number parsed from
the template string blockNumber-then-transactionIndex-then-logIndex. -/
def attestationIndex (bn ti li : Nat) : Nat :=
  catNum (catNum bn ti) li

/-- Insert an element into a list before the first element it is `le` to. -/
def insertByLe {α : Type} (le : α → α → Bool) (a : α) : List α → List α
  | [] => [a]
  | b :: rest => if le a b then a :: b :: rest else b :: insertByLe le a rest

/-- Insertion sort with a Bool comparison; models Array.prototype.sort
with a consistent comparator and anondb orderBy. -/
def sortByLe {α : Type} (le : α → α → Bool) : List α → List α
  | [] => []
  | a :: rest => insertByLe le a (sortByLe le rest)

/-- An ethers event position. -/
structure Ev where
  blockNumber : Nat
  transactionIndex : Nat
  logIndex : Nat
deriving DecidableEq, Repr

/-- The processEvents sort comparator as a le relation:
blockNumber first, then transactionIndex, then logIndex. -/
def evLe (a b : Ev) : Bool :=
  a.blockNumber < b.blockNumber ||
    (a.blockNumber == b.blockNumber &&
      (a.transactionIndex < b.transactionIndex ||
        (a.transactionIndex == b.transactionIndex && a.logIndex ≤ b.logIndex)))

/-- The order in which processEvents invokes the handlers: the events
sorted by the comparator. -/
def processOrder (events : List Ev) : List Ev :=
  sortByLe evLe events

/-- The startDaemon cursor filter, translated branch by branch. -/
def keepEvent (sBlock sTx sLog : Nat) (e : Ev) : Bool :=
  if e.blockNumber == sBlock then
    if e.transactionIndex == sTx then decide (sLog < e.logIndex)
    else decide (sTx < e.transactionIndex)
  else decide (sBlock < e.blockNumber)

/-- Strict lexicographic order on (block, txIndex, logIndex) triples. -/
def tripleLt (a b : Nat × Nat × Nat) : Bool :=
  a.1 < b.1 ||
    (a.1 == b.1 && (a.2.1 < b.2.1 || (a.2.1 == b.2.1 && a.2.2 < b.2.2)))

/-- Position triple of an event. -/
def evPos (e : Ev) : Nat × Nat × Nat :=
  (e.blockNumber, e.transactionIndex, e.logIndex)

/-- One hashing level of a binary Merkle tree. -/
def hashLevel (H : Nat → Nat → Nat) : List Nat → List Nat
  | [] => []
  | [a] => [a]
  | a :: b :: rest => H a b :: hashLevel H rest

/-- Root of a binary Merkle tree of the given depth over a full leaf level. -/
def gstRootAux (H : Nat → Nat → Nat) : Nat → List Nat → Nat
  | 0, l => l.headD 0
  | d + 1, l => gstRootAux H d (hashLevel H l)

/-- Root of the incremental Merkle tree (external library, modelled
concretely): the inserted leaves padded to 2^depth with the default leaf. -/
def gstRootOf (H : Nat → Nat → Nat) (depth dflt : Nat) (leaves : List Nat) : Nat :=
  gstRootAux H depth (leaves ++ List.replicate (2 ^ depth - leaves.length) dflt)

/-- Subtree root of a sparse Merkle tree: height d, covering leaf
indices [base * 2^d, (base+1) * 2^d). -/
def smtRootAux (H : Nat → Nat → Nat) (leafAt : Nat → Nat) : Nat → Nat → Nat
  | 0, base => leafAt base
  | d + 1, base => H (smtRootAux H leafAt d (2 * base)) (smtRootAux H leafAt d (2 * base + 1))

/-- Leaf value after a sequence of (key, value) updates; later updates win. -/
def smtLeafAt (updates : List (Nat × Nat)) (dflt : Nat) (i : Nat) : Nat :=
  match updates.reverse.find? (fun u => u.1 == i) with
  | some u => u.2
  | none => dflt

/-- Root of the sparse Merkle tree (external library, modelled
concretely) with the given default leaf after applying the updates. -/
def smtRootOfUpdates (H : Nat → Nat → Nat) (depth dflt : Nat)
    (updates : List (Nat × Nat)) : Nat :=
  smtRootAux H (smtLeafAt updates dflt) depth 0

/-- findOne Proof where index and event = IndexedUserStateTransitionProof. -/
def findUSTProof (store : Store) (proofIndex : Nat) : Option ProofRow :=
  store.proofs.find?
    (fun p => p.index == proofIndex && p.event == ProofEventType.indexedUserStateTransitionProof)

/-- findOne Proof where event = IndexedStartedTransitionProof and index. -/
def findStartProof (store : Store) (idx : Nat) : Option ProofRow :=
  store.proofs.find?
    (fun p => p.event == ProofEventType.indexedStartedTransitionProof && p.index == idx)

/-- findOne Proof where event = IndexedProcessedAttestationsProof and index. -/
def findProcessAPProof (store : Store) (idx : Nat) : Option ProofRow :=
  store.proofs.find?
    (fun p => p.event == ProofEventType.indexedProcessedAttestationsProof && p.index == idx)

/-- findOne Proof where epoch and index (the attestation handler lookups). -/
def findProofByEpochIndex (store : Store) (epoch idx : Nat) : Option ProofRow :=
  store.proofs.find? (fun p => p.epoch == some epoch && p.index == idx)

/-- findOne GSTRoot where epoch and root. -/
def findGSTRootRow (store : Store) (epoch root : Nat) : Option GSTRootRow :=
  store.gstRoots.find? (fun r => r.epoch == epoch && r.root == root)

/-- findOne Epoch where number and epochRoot. -/
def findEpochRootRow (store : Store) (epoch root : Nat) : Option EpochRow :=
  store.epochs.find? (fun e => e.number == epoch && e.epochRoot == some root)

/-- findOne Nullifier where nullifier in the list and confirmed = true. -/
def findConfirmedDup (store : Store) (ns : List Nat) : Option NullifierRow :=
  store.nullifiers.find? (fun n => ns.contains n.nullifier && n.confirmed)

/-- Whether a GSTRoot row for the epoch and root exists. -/
def rootExistsB (store : Store) (epoch root : Nat) : Bool :=
  (findGSTRootRow store epoch root).isSome

/-- GSTRootExists: _checkValidEpoch (throws when the epoch is beyond the
current one) followed by the GSTRoot row lookup. -/
def GSTRootExists (store : Store) (root epoch : Nat) : Except SyncErr Bool :=
  if (loadCurrentEpoch store).number < epoch then .error .epochOutOfRange
  else .ok (rootExistsB store epoch root)

/-- Modelled from the spec: the Nullifier schema file is not under src/;
spec section 4.4 step 7 says rejected-stage nullifiers are inserted "as
confirmed", so the schema default for `confirmed` is true. -/
def newNullifierRow (epoch nf : Nat) : NullifierRow :=
  { epoch := epoch, nullifier := nf, confirmed := true }

/-- startUSTProofEvent: persists the start-transition Proof row with
valid = the prover verdict (no root lookup in this handler). -/
def startUSTProofEvent (isValid : Bool) (proofIndex bus gst bhc : Nat)
    (prf : List Nat) (txh : Nat) (store : Store) : Store :=
  { store with
    proofs := store.proofs ++ [{
      index := proofIndex
      epoch := none
      publicSignals := []
      proof := prf
      valid := isValid
      spent := false
      blindedUserState := some bus
      blindedHashChain := some bhc
      outputBlindedUserState := none
      outputBlindedHashChain := none
      inputBlindedUserState := none
      globalStateTree := some gst
      proofIndexRecords := []
      transactionHash := txh
      event := ProofEventType.indexedStartedTransitionProof }] }

/-- processAttestationProofEvent: persists the processed-attestations
Proof row with valid = the prover verdict (globalStateTree is the
literal string zero; no root lookup in this handler). -/
def processAttestationProofEvent (isValid : Bool)
    (proofIndex inputBUS outputBUS outputBHC : Nat)
    (prf : List Nat) (txh : Nat) (store : Store) : Store :=
  { store with
    proofs := store.proofs ++ [{
      index := proofIndex
      epoch := none
      publicSignals := []
      proof := prf
      valid := isValid
      spent := false
      blindedUserState := none
      blindedHashChain := none
      outputBlindedUserState := some outputBUS
      outputBlindedHashChain := some outputBHC
      inputBlindedUserState := some inputBUS
      globalStateTree := some 0
      proofIndexRecords := []
      transactionHash := txh
      event := ProofEventType.indexedProcessedAttestationsProof }] }

/-- epochKeyProofEvent: persists the epoch-key Proof row with
valid = verdict AND root-exists (at the topic epoch). -/
def epochKeyProofEvent (isValid : Bool) (proofIndex epoch : Nat)
    (sigGST sigEpoch sigEpochKey : Nat)
    (prf : List Nat) (txh : Nat) (store : Store) : Except SyncErr Store :=
  match GSTRootExists store sigGST epoch with
  | .error e => .error e
  | .ok exist =>
    .ok { store with
      proofs := store.proofs ++ [{
        index := proofIndex
        epoch := some epoch
        publicSignals := [sigGST, sigEpoch, sigEpochKey]
        proof := prf
        valid := isValid && exist
        spent := false
        blindedUserState := none
        blindedHashChain := none
        outputBlindedUserState := none
        outputBlindedHashChain := none
        inputBlindedUserState := none
        globalStateTree := some sigGST
        proofIndexRecords := []
        transactionHash := txh
        event := ProofEventType.indexedEpochKeyProof }] }

/-- userSignedUpProofEvent: persists the sign-up Proof row with
valid = verdict AND root-exists (at the topic epoch). -/
def userSignedUpProofEvent (isValid : Bool) (proofIndex epoch : Nat)
    (sigEpoch sigEpochKey sigGST sigAttesterId sigUserHasSignedUp : Nat)
    (prf : List Nat) (txh : Nat) (store : Store) : Except SyncErr Store :=
  match GSTRootExists store sigGST epoch with
  | .error e => .error e
  | .ok exist =>
    .ok { store with
      proofs := store.proofs ++ [{
        index := proofIndex
        epoch := some epoch
        publicSignals := [sigEpoch, sigEpochKey, sigGST, sigAttesterId, sigUserHasSignedUp]
        proof := prf
        valid := isValid && exist
        spent := false
        blindedUserState := none
        blindedHashChain := none
        outputBlindedUserState := none
        outputBlindedHashChain := none
        inputBlindedUserState := none
        globalStateTree := some sigGST
        proofIndexRecords := []
        transactionHash := txh
        event := ProofEventType.indexedUserSignedUpProof }] }

/-- reputationProofEvent: persists the reputation Proof row with
valid = verdict AND root-exists AND no confirmed duplicate among the
non-zero repNullifiers; when there is no confirmed duplicate it deletes
the unconfirmed rows for those nullifiers and inserts fresh rows, in
both the valid and the invalid case. -/
def reputationProofEvent (isValid : Bool) (proofIndex epoch : Nat)
    (repNullifiers : List Nat)
    (sigEpoch sigEpochKey sigGST sigAttesterId sigProveRepAmount sigMinRep sigProveGraffiti sigGraffitiPreImage : Nat)
    (prf : List Nat) (txh : Nat) (store : Store) : Except SyncErr Store :=
  match GSTRootExists store sigGST epoch with
  | .error e => .error e
  | .ok exist =>
    let repNZ := repNullifiers.filter (fun n => n != 0)
    let dup := findConfirmedDup store repNZ
    let nulls :=
      if dup.isSome then store.nullifiers
      else
        store.nullifiers.filter (fun n => !(repNZ.contains n.nullifier && !n.confirmed))
          ++ repNZ.map (newNullifierRow epoch)
    .ok { store with
      nullifiers := nulls
      proofs := store.proofs ++ [{
        index := proofIndex
        epoch := some epoch
        publicSignals := repNullifiers ++ [sigEpoch, sigEpochKey, sigGST, sigAttesterId,
          sigProveRepAmount, sigMinRep, sigProveGraffiti, sigGraffitiPreImage]
        proof := prf
        valid := isValid && exist && !dup.isSome
        spent := false
        blindedUserState := none
        blindedHashChain := none
        outputBlindedUserState := none
        outputBlindedHashChain := none
        inputBlindedUserState := none
        globalStateTree := some sigGST
        proofIndexRecords := []
        transactionHash := txh
        event := ProofEventType.indexedReputationProof }] }

/-- USTProofEvent: persists the user-state-transition Proof row with
valid = verdict AND from-root-exists (at transitionFromEpoch); the
public signals are the concatenated circuit layout. -/
def USTProofEvent (isValid : Bool) (proofIndex : Nat)
    (newGSTLeaf : Nat) (epkNullifiers : List Nat) (transitionFromEpoch : Nat)
    (blindedUserStates : List Nat) (fromGST : Nat) (blindedHashChains : List Nat)
    (fromEpochTree : Nat) (proofIndexRecords : List Nat)
    (prf : List Nat) (txh : Nat) (store : Store) : Except SyncErr Store :=
  match GSTRootExists store fromGST transitionFromEpoch with
  | .error e => .error e
  | .ok exist =>
    .ok { store with
      proofs := store.proofs ++ [{
        index := proofIndex
        epoch := none
        publicSignals := [newGSTLeaf] ++ epkNullifiers ++ [transitionFromEpoch]
          ++ blindedUserStates ++ [fromGST] ++ blindedHashChains ++ [fromEpochTree]
        proof := prf
        valid := isValid && exist
        spent := false
        blindedUserState := some (blindedUserStates.getD 0 0)
        blindedHashChain := none
        outputBlindedUserState := none
        outputBlindedHashChain := none
        inputBlindedUserState := none
        globalStateTree := some fromGST
        proofIndexRecords := proofIndexRecords
        transactionHash := txh
        event := ProofEventType.indexedUserStateTransitionProof }] }

/-- Decoded arguments of an AttestationSubmitted event. -/
structure AttestationArgs where
  epoch : Nat
  epochKey : Nat
  attester : Nat
  blockNumber : Nat
  transactionIndex : Nat
  logIndex : Nat
  transactionHash : Nat
  toProofIndex : Nat
  fromProofIndex : Nat
  attesterId : Nat
  posRep : Nat
  negRep : Nat
  graffiti : Nat
  signUp : Nat
deriving DecidableEq, Repr

/-- _isEpochKeySealed: the EpochKey row joined to its Epoch row. -/
def epochKeyIsSealed (store : Store) (epoch key : Nat) : Bool :=
  match store.epochKeys.find? (fun ek => ek.epoch == epoch && ek.key == key) with
  | none => false
  | some ek =>
    match store.epochs.find? (fun ep => ep.number == ek.epoch) with
    | none => false
    | some ep => ep.sealed

/-- The Attestation row created by the attestation handler, with `valid`
unset. -/
def mkAttestationRow (hash5 : Nat → Nat → Nat → Nat → Nat → Nat)
    (a : AttestationArgs) : AttestationRow :=
  { epoch := a.epoch
    epochKey := a.epochKey
    index := attestationIndex a.blockNumber a.transactionIndex a.logIndex
    transactionHash := a.transactionHash
    attester := a.attester
    proofIndex := a.toProofIndex
    attesterId := a.attesterId
    posRep := a.posRep
    negRep := a.negRep
    graffiti := a.graffiti
    signUp := a.signUp != 0
    hash := hash5 a.attesterId a.posRep a.negRep a.graffiti a.signUp
    valid := none }

/-- db.update Attestation where epoch, epochKey, proofIndex set valid=false. -/
def markAttsInvalid (epoch epochKey proofIndex : Nat)
    (atts : List AttestationRow) : List AttestationRow :=
  atts.map (fun r =>
    if r.epoch == epoch && r.epochKey == epochKey && r.proofIndex == proofIndex
    then { r with valid := some false } else r)

/-- db.update Attestation where epoch, epochKey set valid=true (the
success-path update carries no proofIndex in its where clause). -/
def markAttsValid (epoch epochKey : Nat)
    (atts : List AttestationRow) : List AttestationRow :=
  atts.map (fun r =>
    if r.epoch == epoch && r.epochKey == epochKey
    then { r with valid := some true } else r)

/-- db.update Proof where epoch, index set spent=true. -/
def markProofSpent (epoch idx : Nat) (proofs : List ProofRow) : List ProofRow :=
  proofs.map (fun p =>
    if p.epoch == some epoch && p.index == idx
    then { p with spent := true } else p)

/-- db.upsert EpochKey where epoch, key (the update clause is empty). -/
def upsertEpochKey (epoch key : Nat) (eks : List EpochKeyRow) : List EpochKeyRow :=
  if eks.any (fun ek => ek.epoch == epoch && ek.key == key) then eks
  else eks ++ [{ epoch := epoch, key := key }]

/-- attestationEvent: epoch/key checks, create the Attestation row, then
validate against the toProof and (when non-zero) the fromProof, marking
rows by the literal where clauses of the source. -/
def attestationEvent (hash5 : Nat → Nat → Nat → Nat → Nat → Nat)
    (epochTreeDepth : Nat) (a : AttestationArgs) (store : Store) :
    Except SyncErr Store :=
  if a.epoch != (loadCurrentEpoch store).number then .error .epochMismatch
  else if 2 ^ epochTreeDepth ≤ a.epochKey then .error .epochKeyRange
  else if epochKeyIsSealed store a.epoch a.epochKey then .error .epochKeyIsSealed
  else
    let atts1 := store.attestations ++ [mkAttestationRow hash5 a]
    match findProofByEpochIndex store a.epoch a.toProofIndex with
    | none => .error .proofNotFound
    | some vp =>
      if !vp.valid then
        .ok { store with
          attestations := markAttsInvalid a.epoch a.epochKey a.toProofIndex atts1 }
      else if a.fromProofIndex != 0 then
        match findProofByEpochIndex store a.epoch a.fromProofIndex with
        | none => .error .fromProofNotFound
        | some fp =>
          if !fp.valid || fp.spent then
            .ok { store with
              attestations := markAttsInvalid a.epoch a.epochKey a.fromProofIndex atts1 }
          else
            .ok { store with
              proofs := markProofSpent a.epoch a.fromProofIndex store.proofs
              attestations := markAttsValid a.epoch a.epochKey atts1
              epochKeys := upsertEpochKey a.epoch a.epochKey store.epochKeys }
      else
        .ok { store with
          attestations := markAttsValid a.epoch a.epochKey atts1
          epochKeys := upsertEpochKey a.epoch a.epochKey store.epochKeys }

/-- The decoded public signals of a user-state-transition proof. -/
structure USTSignals where
  newGSTLeaf : Nat
  epkNullifiers : List Nat
  transitionFromEpoch : Nat
  blindedUserStates : List Nat
  fromGlobalStateTree : Nat
  blindedHashChains : List Nat
  fromEpochTree : Nat
deriving DecidableEq, Repr

/-- UserTransitionProof decoding of the stored public-signal list, with
K epoch-key nullifiers and M blinded hash chains. -/
def parseUST (K M : Nat) (sig : List Nat) : USTSignals :=
  { newGSTLeaf := sig.getD 0 0
    epkNullifiers := (sig.drop 1).take K
    transitionFromEpoch := sig.getD (1 + K) 0
    blindedUserStates := (sig.drop (2 + K)).take 2
    fromGlobalStateTree := sig.getD (4 + K) 0
    blindedHashChains := (sig.drop (5 + K)).take M
    fromEpochTree := sig.getD (5 + K + M) 0 }

/-- Outcome of one validation stage of the UST handler: a thrown error,
a logged no-op return, or the value to continue with. -/
inductive Stage (α : Type) where
  | fatal (e : SyncErr)
  | noop
  | next (a : α)
deriving DecidableEq

/-- The processed-attestations chain walk (loop from i = 1): each
referenced proof must exist, be valid, and consume the running blinded
user state; a missing row is a logged no-op in the source. -/
def processAPChain (store : Store) (cur : Option Nat) :
    List Nat → Stage (Option Nat)
  | [] => .next cur
  | idx :: rest =>
    match findProcessAPProof store idx with
    | none => .noop
    | some pap =>
      if !pap.valid then .noop
      else if cur != pap.inputBlindedUserState then .noop
      else processAPChain store pap.outputBlindedUserState rest

/-- findOne Proof where outputBlindedHashChain, event in the two
transition kinds, and index in proofIndexRecords. -/
def findBlindHC (store : Store) (records : List Nat) (hc : Nat) : Option ProofRow :=
  store.proofs.find? (fun p =>
    p.outputBlindedHashChain == some hc &&
    (p.event == ProofEventType.indexedStartedTransitionProof ||
      p.event == ProofEventType.indexedProcessedAttestationsProof) &&
    records.contains p.index)

/-- The blinded-hash-chain loop of the UST handler.  When findOne comes
back empty the source dereferences null (findBlindHC.index), a thrown
TypeError; when it finds a row the row's index is by construction in
proofIndexRecords, and the indexOf = -1 branch logs and no-ops. -/
def checkBlindedHCs (store : Store) (records : List Nat) :
    List Nat → Stage Unit
  | [] => .next ()
  | hc :: rest =>
    match findBlindHC store records hc with
    | none => .fatal .nullDeref
    | some row =>
      if records.contains row.index then checkBlindedHCs store records rest
      else .noop

/-- USTEvent: the UserStateTransitioned handler.  Validates the UST
proof, the start-transition proof, the processed-attestations chain,
the blinded hash chains, the from-epoch roots and nullifier freshness;
on success confirms the nullifiers and appends the new GST leaf and
root. -/
def USTEvent (H : Nat → Nat → Nat) (gstDepth dfltLeaf K M : Nat)
    (epoch leaf proofIndex txh : Nat) (sync : Sync) : Except SyncErr Sync :=
  let store := sync.store
  match findUSTProof store proofIndex with
  | none => .error .noTransitionProof
  | some tp =>
    if !tp.valid then .ok sync
    else
      match findStartProof store (tp.proofIndexRecords.getD 0 0) with
      | none => .error .nullDeref
      | some stp =>
        if !stp.valid then .ok sync
        else if stp.blindedUserState != tp.blindedUserState
            || stp.globalStateTree != tp.globalStateTree then .ok sync
        else
          match processAPChain store stp.blindedUserState (tp.proofIndexRecords.drop 1) with
          | .fatal e => .error e
          | .noop => .ok sync
          | .next _ =>
            let fp := parseUST K M tp.publicSignals
            match checkBlindedHCs store tp.proofIndexRecords fp.blindedHashChains with
            | .fatal e => .error e
            | .noop => .ok sync
            | .next _ =>
              let fromEpoch := fp.transitionFromEpoch
              let epkNZ := fp.epkNullifiers.filter (fun n => n != 0)
              if (loadCurrentEpoch store).number < fromEpoch then .error .epochOutOfRange
              else if (findGSTRootRow store fromEpoch fp.fromGlobalStateTree).isNone then .ok sync
              else if (findEpochRootRow store fromEpoch fp.fromEpochTree).isNone then .ok sync
              else if (findConfirmedDup store epkNZ).isSome then .ok sync
              else
                let newMem := sync.memGST ++ [leaf]
                let leafIndex := store.gstLeaves.countP (fun l => l.epoch == epoch)
                .ok { store := { store with
                        nullifiers :=
                          store.nullifiers.filter
                            (fun n => !(epkNZ.contains n.nullifier && !n.confirmed))
                          ++ epkNZ.map (newNullifierRow epoch)
                        gstLeaves := store.gstLeaves
                          ++ [{ epoch := epoch, index := leafIndex, hash := leaf, transactionHash := txh }]
                        gstRoots := store.gstRoots
                          ++ [{ epoch := epoch, root := gstRootOf H gstDepth dfltLeaf newMem }] }
                      memGST := newMem }

/-- userSignedUpEvent: compute the initial UST root (external primitive,
passed as initRoot), hash with the identity commitment, insert the leaf
into the in-memory GST and persist the GSTLeaf and GSTRoot rows. -/
def userSignedUpEvent (H : Nat → Nat → Nat) (gstDepth dfltLeaf : Nat)
    (initRoot : Nat → Nat → Nat)
    (epoch idCommitment attesterId airdrop txh : Nat) (sync : Sync) :
    Except SyncErr Sync :=
  let store := sync.store
  if epoch != (loadCurrentEpoch store).number then .error .epochMismatch
  else
    let newLeaf := H idCommitment (initRoot attesterId airdrop)
    let newMem := sync.memGST ++ [newLeaf]
    let leafIndex := store.gstLeaves.countP (fun l => l.epoch == epoch)
    .ok { store := { store with
            gstLeaves := store.gstLeaves
              ++ [{ epoch := epoch, index := leafIndex, hash := newLeaf, transactionHash := txh }]
            gstRoots := store.gstRoots
              ++ [{ epoch := epoch, root := gstRootOf H gstDepth dfltLeaf newMem }] }
          memGST := newMem }

/-- Comparison by Attestation index (orderBy index asc). -/
def attIndexLe (a b : AttestationRow) : Bool :=
  a.index ≤ b.index

/-- The sealed hash chain for an epoch key: fold its valid attestations
in index order under chain = H(attestationHash, chain) from 0, then
seal as H(1, chain). -/
def sealedHashChain (H : Nat → Nat → Nat) (store : Store) (epoch key : Nat) : Nat :=
  let atts := sortByLe attIndexLe
    (store.attestations.filter
      (fun r => r.epoch == epoch && r.epochKey == key && r.valid == some true))
  H 1 (atts.foldl (fun hc r => H r.hash hc) 0)

/-- genEpochTree, returning the SMT root: _checkValidEpoch, the range
check for every epoch key of the epoch, then the tree built from the
(epochKey, sealedHashChain) updates over default leaf smtOne. -/
def genEpochTreeRoot (H : Nat → Nat → Nat) (epochTreeDepth smtOne : Nat)
    (store : Store) (epoch : Nat) : Except SyncErr Nat :=
  if (loadCurrentEpoch store).number < epoch then .error .epochOutOfRange
  else
    let keys := store.epochKeys.filter (fun k => k.epoch == epoch)
    if keys.any (fun k => 2 ^ epochTreeDepth ≤ k.key) then .error .epochKeyRange
    else
      .ok (smtRootOfUpdates H epochTreeDepth smtOne
        (keys.map (fun k => (k.key, sealedHashChain H store epoch k.key))))

/-- db.upsert Epoch where number: seal with the root, or create sealed. -/
def upsertEpochSealed (epoch root : Nat) (epochs : List EpochRow) : List EpochRow :=
  if epochs.any (fun e => e.number == epoch) then
    epochs.map (fun e =>
      if e.number == epoch then { e with sealed := true, epochRoot := some root } else e)
  else epochs ++ [{ number := epoch, sealed := true, epochRoot := some root }]

/-- epochEndedEvent: build the epoch tree, seal the Epoch row with its
root, create the next unsealed stub, reset the in-memory GST. -/
def epochEndedEvent (H : Nat → Nat → Nat) (epochTreeDepth smtOne : Nat)
    (epoch : Nat) (sync : Sync) : Except SyncErr Sync :=
  match genEpochTreeRoot H epochTreeDepth smtOne sync.store epoch with
  | .error e => .error e
  | .ok root =>
    .ok { store := { sync.store with
            epochs := upsertEpochSealed epoch root sync.store.epochs
              ++ [{ number := epoch + 1, sealed := false, epochRoot := none }] }
          memGST := [] }

/-- Comparison by GSTLeaf index (orderBy index asc). -/
def gstLeafIndexLe (a b : GSTLeafRow) : Bool :=
  a.index ≤ b.index

/-- setup: reject multiple unsealed epochs, then load the in-memory GST
leaves of the unsealed epoch (empty for a fresh sync). -/
def setup (store : Store) : Except SyncErr (List Nat) :=
  let unsealed := store.epochs.filter (fun e => !e.sealed)
  if 1 < unsealed.length then .error .multipleUnsealed
  else
    match unsealed with
    | [] => .ok []
    | e :: _ =>
      .ok ((sortByLe gstLeafIndexLe
        (store.gstLeaves.filter (fun l => l.epoch == e.number))).map (fun l => l.hash))

/-- Number of unsealed Epoch rows. -/
def unsealedCount (store : Store) : Nat :=
  (store.epochs.filter (fun e => !e.sealed)).length

/-- The store with no rows. -/
def emptyStore : Store :=
  { epochs := [], gstLeaves := [], gstRoots := [], epochKeys := []
    attestations := [], nullifiers := [], proofs := [] }

/-- A Proof row with only index, epoch, event and valid set; fixture base. -/
def mkProofRow (idx : Nat) (ep : Option Nat) (ev : ProofEventType) (v : Bool) : ProofRow :=
  { index := idx, epoch := ep, publicSignals := [], proof := [], valid := v
    spent := false, blindedUserState := none, blindedHashChain := none
    outputBlindedUserState := none, outputBlindedHashChain := none
    inputBlindedUserState := none, globalStateTree := none
    proofIndexRecords := [], transactionHash := 0, event := ev }

/-- A concrete stand-in for the external pairwise hash. -/
def hc2 : Nat → Nat → Nat :=
  fun a b => 2 * a + 3 * b + 1

/-- A concrete stand-in for the external attestation hash. -/
def hc5 : Nat → Nat → Nat → Nat → Nat → Nat :=
  fun a b c d e => a + b + c + d + e + 7

/-- The valid attestation values of a handler result. -/
def attValidsOf (r : Except SyncErr Store) : List (Option Bool) :=
  match r with
  | .ok s => s.attestations.map (fun row => row.valid)
  | .error _ => []

/-- The Proof `valid` values of a store. -/
def proofValids (store : Store) : List Bool :=
  store.proofs.map (fun p => p.valid)

/-- The Proof `valid` values of a handler result (empty on a throw). -/
def proofValidsE (r : Except SyncErr Store) : List Bool :=
  match r with
  | .ok s => proofValids s
  | .error _ => []

/-- C1 fixture: current epoch 1; the toProof (index 2) is valid, the
fromProof (index 3) is invalid. -/
def c1store : Store :=
  { emptyStore with
    epochs := [{ number := 1, sealed := false, epochRoot := none }]
    proofs := [mkProofRow 2 (some 1) ProofEventType.indexedEpochKeyProof true,
               mkProofRow 3 (some 1) ProofEventType.indexedReputationProof false] }

/-- C1 fixture: an attestation referencing toProof 2 and fromProof 3. -/
def c1args : AttestationArgs :=
  { epoch := 1, epochKey := 5, attester := 9, blockNumber := 1
    transactionIndex := 0, logIndex := 0, transactionHash := 77
    toProofIndex := 2, fromProofIndex := 3, attesterId := 1
    posRep := 5, negRep := 2, graffiti := 0, signUp := 0 }

/-- UST fixture: a valid UST proof (index 9), records [1, 2], public
signals for K = 1, M = 1 with blinded hash chain 30. -/
def c2tp : ProofRow :=
  { mkProofRow 9 none ProofEventType.indexedUserStateTransitionProof true with
    blindedUserState := some 7, globalStateTree := some 8
    proofIndexRecords := [1, 2]
    publicSignals := [100, 40, 1, 7, 71, 60, 30, 50] }

/-- UST fixture: the matching valid start-transition proof (index 1). -/
def c2stp : ProofRow :=
  { mkProofRow 1 none ProofEventType.indexedStartedTransitionProof true with
    blindedUserState := some 7, globalStateTree := some 8 }

/-- UST fixture: the valid processed-attestations proof (index 2)
consuming blinded user state 7 and producing hash chain 30. -/
def c2pap : ProofRow :=
  { mkProofRow 2 none ProofEventType.indexedProcessedAttestationsProof true with
    inputBlindedUserState := some 7, outputBlindedUserState := some 9
    outputBlindedHashChain := some 30 }

/-- C2 fixture: epoch 1 sealed with root 50, epoch 2 current; GST root
60 of epoch 1 known; nullifier 40 already confirmed. -/
def c2store : Store :=
  { emptyStore with
    epochs := [{ number := 1, sealed := true, epochRoot := some 50 },
               { number := 2, sealed := false, epochRoot := none }]
    gstRoots := [{ epoch := 1, root := 60 }]
    nullifiers := [{ epoch := 1, nullifier := 40, confirmed := true }]
    proofs := [c2tp, c2stp, c2pap] }

/-- C2 fixture: synchronizer state over c2store. -/
def c2sync : Sync :=
  { store := c2store, memGST := [] }

/-- C4 fixture: a valid UST proof whose blinded hash chain 33 matches no
referenced proof. -/
def c4tp : ProofRow :=
  { mkProofRow 9 none ProofEventType.indexedUserStateTransitionProof true with
    blindedUserState := some 7, globalStateTree := some 8
    proofIndexRecords := [1]
    publicSignals := [100, 40, 1, 7, 71, 60, 33, 50] }

/-- C4 fixture: the UST proof and its start proof, nothing matching the
blinded hash chain. -/
def c4store : Store :=
  { emptyStore with
    epochs := [{ number := 1, sealed := true, epochRoot := some 50 },
               { number := 2, sealed := false, epochRoot := none }]
    proofs := [c4tp, c2stp] }

/-- C4 fixture: synchronizer state over c4store. -/
def c4sync : Sync :=
  { store := c4store, memGST := [] }

/-- An Attestation row fixture with the validation-relevant fields. -/
def mkAttRow (ep key idx h : Nat) (v : Option Bool) : AttestationRow :=
  { epoch := ep, epochKey := key, index := idx, transactionHash := 0
    attester := 0, proofIndex := 0, attesterId := 0, posRep := 0, negRep := 0
    graffiti := 0, signUp := false, hash := h, valid := v }

/-- C7 fixture: unsealed epoch 1 with one epoch key (3) carrying two
valid attestations (out of index order) and one invalid one. -/
def c7store : Store :=
  { emptyStore with
    epochs := [{ number := 1, sealed := false, epochRoot := none }]
    epochKeys := [{ epoch := 1, key := 3 }]
    attestations := [mkAttRow 1 3 20 11 (some true),
                     mkAttRow 1 3 10 12 (some true),
                     mkAttRow 1 3 5 13 (some false)] }

/-- C7 fixture: synchronizer state over c7store. -/
def c7sync : Sync :=
  { store := c7store, memGST := [7] }

end Unirep

namespace Unirep

/-- C10: nullifierExist is true exactly when some Nullifier row (confirmed
or not) carries the value. -/
theorem c10_nullifierExist_iff_row_exists (store : Store) (v : Nat) :
    nullifierExist store v = true ↔ ∃ n ∈ store.nullifiers, n.nullifier = v := by
  unfold nullifierExist
  rw [bne_iff_ne, ← Nat.pos_iff_ne_zero, List.countP_pos_iff]
  simp

/-- C1: at a concrete input where the toProof is valid but the fromProof
is invalid (and fromProofIndex differs from toProofIndex), the handler
commits and the freshly created Attestation row keeps `valid` unset
(`none`): it is not marked valid = false, because the failure-path
update targets rows whose proofIndex equals fromProofIndex while the
new row carries proofIndex = toProofIndex. -/
theorem c1_from_proof_failure_leaves_valid_unset :
    attValidsOf (attestationEvent hc5 4 c1args c1store) = [none] := by
  rfl

/-- C4: at a concrete input where a blindedHashChain of the UST proof
matches no start-transition or processed-attestations proof among the
referenced indices, the handler throws (a null dereference of the
findOne result) instead of logging and returning: the event is not a
no-op, the exception aborts the transaction. -/
theorem c4_missing_blinded_hash_chain_throws :
    USTEvent hc2 2 0 1 1 2 101 9 777 c4sync = .error SyncErr.nullDeref := by
  rfl

/-- C2: a UserStateTransitioned event that passes every check before the
nullifier stage and whose non-zero epkNullifiers contain an already
confirmed value is a logged no-op: the handler returns without an error
and the state (GSTLeaf, GSTRoot and Nullifier rows included) is
unchanged. -/
theorem c2_duplicate_nullifier_is_noop
    (H : Nat → Nat → Nat) (gstDepth dfltLeaf K M epoch leaf proofIndex txh : Nat)
    (sync : Sync) (tp stp : ProofRow) (cur : Option Nat)
    (h1 : findUSTProof sync.store proofIndex = some tp)
    (h2 : tp.valid = true)
    (h3 : findStartProof sync.store (tp.proofIndexRecords.getD 0 0) = some stp)
    (h4 : stp.valid = true)
    (h5 : stp.blindedUserState = tp.blindedUserState)
    (h6 : stp.globalStateTree = tp.globalStateTree)
    (h7 : processAPChain sync.store stp.blindedUserState (tp.proofIndexRecords.drop 1)
      = Stage.next cur)
    (h8 : checkBlindedHCs sync.store tp.proofIndexRecords
      (parseUST K M tp.publicSignals).blindedHashChains = Stage.next ())
    (h9 : (parseUST K M tp.publicSignals).transitionFromEpoch
      ≤ (loadCurrentEpoch sync.store).number)
    (hdup : (findConfirmedDup sync.store
      ((parseUST K M tp.publicSignals).epkNullifiers.filter (fun n => n != 0))).isSome
      = true) :
    USTEvent H gstDepth dfltLeaf K M epoch leaf proofIndex txh sync = .ok sync := by
  have h3' := h3
  have h7' := h7
  rw [h5] at h7'
  simp only [List.getD_eq_getElem?_getD, List.drop_one] at h3' h7'
  simp only [USTEvent]
  simp [h1, h2, h3', h4, h5, h6, h7', h8, hdup, Nat.not_lt.mpr h9]

/-- C2 witness: the no-op theorem applied to the concrete fixture. -/
theorem c2_witness :
    USTEvent hc2 2 0 1 1 2 101 9 777 c2sync = .ok c2sync :=
  c2_duplicate_nullifier_is_noop hc2 2 0 1 1 2 101 9 777 c2sync c2tp c2stp (some 9)
    (by rfl) (by rfl) (by rfl) (by rfl) (by rfl) (by rfl) (by rfl) (by rfl)
    (by decide) (by rfl)

theorem decimalLen_def (n : Nat) :
    decimalLen n = if n < 10 then 1 else decimalLen (n / 10) + 1 := by
  conv_lhs => rw [decimalLen]
  split
  · next h => simp [h]
  · next h => simp [h]

theorem decimalLen_pos (n : Nat) : 1 ≤ decimalLen n := by
  rw [decimalLen_def]
  split <;> omega

theorem lt_pow_decimalLen (n : Nat) : n < 10 ^ decimalLen n := by
  induction n using Nat.strong_induction_on with
  | _ n ih =>
    rw [decimalLen_def]
    split
    · next h => simpa using h
    · next h =>
      have hd : n / 10 < n := Nat.div_lt_self (by omega) (by omega)
      have hih := ih (n / 10) hd
      calc n < 10 * (n / 10 + 1) := by omega
        _ ≤ 10 * 10 ^ decimalLen (n / 10) := by
              apply Nat.mul_le_mul_left
              omega
        _ = 10 ^ (decimalLen (n / 10) + 1) := by ring

theorem decimalLen_mono (m n : Nat) (h : m ≤ n) : decimalLen m ≤ decimalLen n := by
  induction n using Nat.strong_induction_on generalizing m with
  | _ n ih =>
    by_cases hn : n < 10
    · have hm : m < 10 := by omega
      rw [decimalLen_def m, decimalLen_def n]
      simp [hm, hn]
    · by_cases hm : m < 10
      · have h1 : decimalLen m = 1 := by rw [decimalLen_def]; simp [hm]
        have h2 := decimalLen_pos n
        omega
      · have hdiv : m / 10 ≤ n / 10 := Nat.div_le_div_right h
        have hlt : n / 10 < n := Nat.div_lt_self (by omega) (by omega)
        have hih := ih (n / 10) hlt (m / 10) hdiv
        have em : decimalLen m = decimalLen (m / 10) + 1 := by
          rw [decimalLen_def]; simp [hm]
        have en : decimalLen n = decimalLen (n / 10) + 1 := by
          rw [decimalLen_def]; simp [hn]
        omega

theorem catNum_lt_catNum (a b1 b2 : Nat) (ha : 1 ≤ a) (h : b1 < b2) :
    catNum a b1 < catNum a b2 := by
  unfold catNum
  have hm := decimalLen_mono b1 b2 (le_of_lt h)
  rcases Nat.lt_or_ge (decimalLen b1) (decimalLen b2) with hlt | hge
  · have hb1 := lt_pow_decimalLen b1
    calc a * 10 ^ decimalLen b1 + b1
        < a * 10 ^ decimalLen b1 + 10 ^ decimalLen b1 := by omega
      _ = (a + 1) * 10 ^ decimalLen b1 := by ring
      _ ≤ (a * 10) * 10 ^ decimalLen b1 := by
            apply Nat.mul_le_mul_right
            omega
      _ = a * 10 ^ (decimalLen b1 + 1) := by ring
      _ ≤ a * 10 ^ decimalLen b2 := by
            apply Nat.mul_le_mul_left
            exact Nat.pow_le_pow_right (by omega) (by omega)
      _ ≤ a * 10 ^ decimalLen b2 + b2 := Nat.le_add_right _ _
  · have heq : decimalLen b1 = decimalLen b2 := le_antisymm hm hge
    rw [heq]
    omega

/-- C5 counterexample: the events (block 1, tx 11, log 1) and
(block 1, tx 1, log 11) are distinct positions but the decimal
concatenation gives both the Attestation index 1111, so the computed
indices are neither unique nor order-consistent across distinct
(blockNumber, txIndex, logIndex) tuples. -/
theorem c5_counterexample :
    attestationIndex 1 11 1 = attestationIndex 1 1 11 ∧
    ((1, 11, 1) : Nat × Nat × Nat) ≠ (1, 1, 11) := by
  have e1 : decimalLen 1 = 1 := by simp [decimalLen_def]
  have e11 : decimalLen 11 = 2 := by simp [decimalLen_def]
  constructor
  · norm_num [attestationIndex, catNum, e1, e11]
  · decide

/-- C5 (amended): for two AttestationSubmitted events in the same block
(with positive block number) and the same transaction, the computed
indices are distinct for distinct logIndex values and comparing them
agrees with the logIndex order; across different transactions or blocks
the decimal concatenation can collide and invert the order (see the
counterexample). -/
theorem c5_index_order_within_transaction (bn ti li1 li2 : Nat) (h : 1 ≤ bn) :
    (attestationIndex bn ti li1 < attestationIndex bn ti li2 ↔ li1 < li2) ∧
    (attestationIndex bn ti li1 = attestationIndex bn ti li2 ↔ li1 = li2) := by
  have hp : 1 ≤ catNum bn ti := by
    unfold catNum
    have h10 : 0 < 10 ^ decimalLen ti := pow_pos (by omega) _
    have := Nat.mul_pos (show 0 < bn by omega) h10
    omega
  have sm : StrictMono (fun li => attestationIndex bn ti li) := by
    intro x y hxy
    exact catNum_lt_catNum _ _ _ hp hxy
  exact ⟨sm.lt_iff_lt, ⟨fun he => sm.injective he, fun he => by rw [he]⟩⟩

/-- C5 witness: the amended theorem applied at block 1, tx 2,
logIndexes 3 and 4. -/
theorem c5_witness :
    (attestationIndex 1 2 3 < attestationIndex 1 2 4 ↔ 3 < 4) ∧
    (attestationIndex 1 2 3 = attestationIndex 1 2 4 ↔ 3 = 4) :=
  c5_index_order_within_transaction 1 2 3 4 (by norm_num)

theorem insertByLe_perm {α : Type} (le : α → α → Bool) (a : α) (l : List α) :
    (insertByLe le a l).Perm (a :: l) := by
  induction l with
  | nil => exact List.Perm.refl _
  | cons b rest ih =>
    rw [insertByLe]
    split
    · exact List.Perm.refl _
    · exact (List.Perm.cons b ih).trans (List.Perm.swap a b rest)

theorem sortByLe_perm {α : Type} (le : α → α → Bool) (l : List α) :
    (sortByLe le l).Perm l := by
  induction l with
  | nil => exact List.Perm.refl _
  | cons a rest ih =>
    exact (insertByLe_perm le a (sortByLe le rest)).trans (List.Perm.cons a ih)

theorem pairwise_insertByLe {α : Type} (le : α → α → Bool)
    (htrans : ∀ a b c, le a b = true → le b c = true → le a c = true)
    (htotal : ∀ a b, le a b = true ∨ le b a = true) (a : α) (l : List α)
    (h : l.Pairwise (fun x y => le x y = true)) :
    (insertByLe le a l).Pairwise (fun x y => le x y = true) := by
  induction l with
  | nil => simp [insertByLe]
  | cons b rest ih =>
    rw [insertByLe]
    rcases List.pairwise_cons.mp h with ⟨hb, hrest⟩
    split
    · next hab =>
      refine List.Pairwise.cons ?_ h
      intro x hx
      rcases List.mem_cons.mp hx with rfl | hx'
      · exact hab
      · exact htrans a b x hab (hb x hx')
    · next hab =>
      have hba : le b a = true := by
        rcases htotal a b with h' | h'
        · exact absurd h' hab
        · exact h'
      refine List.Pairwise.cons ?_ (ih hrest)
      intro x hx
      have hx' : x ∈ a :: rest := (insertByLe_perm le a rest).mem_iff.mp hx
      rcases List.mem_cons.mp hx' with rfl | hx''
      · exact hba
      · exact hb x hx''

theorem pairwise_sortByLe {α : Type} (le : α → α → Bool)
    (htrans : ∀ a b c, le a b = true → le b c = true → le a c = true)
    (htotal : ∀ a b, le a b = true ∨ le b a = true) (l : List α) :
    (sortByLe le l).Pairwise (fun x y => le x y = true) := by
  induction l with
  | nil => simp [sortByLe]
  | cons a rest ih => exact pairwise_insertByLe le htrans htotal a _ ih

theorem evLe_trans (a b c : Ev) :
    evLe a b = true → evLe b c = true → evLe a c = true := by
  simp only [evLe, Bool.or_eq_true, Bool.and_eq_true, decide_eq_true_eq, beq_iff_eq]
  omega

theorem evLe_total (a b : Ev) : evLe a b = true ∨ evLe b a = true := by
  simp only [evLe, Bool.or_eq_true, Bool.and_eq_true, decide_eq_true_eq, beq_iff_eq]
  omega

theorem evLe_ne_implies_lt (a b : Ev)
    (h1 : evLe a b = true) (h2 : evPos a ≠ evPos b) :
    tripleLt (evPos a) (evPos b) = true := by
  simp only [evLe, Bool.or_eq_true, Bool.and_eq_true, decide_eq_true_eq,
    beq_iff_eq] at h1
  simp only [evPos, ne_eq, Prod.mk.injEq, not_and] at h2
  simp only [tripleLt, evPos, Bool.or_eq_true, Bool.and_eq_true,
    decide_eq_true_eq, beq_iff_eq]
  by_cases hb : a.blockNumber = b.blockNumber
  · by_cases ht : a.transactionIndex = b.transactionIndex
    · have := h2 hb ht
      omega
    · omega
  · omega

theorem keepEvent_iff (sB sT sL : Nat) (e : Ev) :
    keepEvent sB sT sL e = true ↔ tripleLt (sB, sT, sL) (evPos e) = true := by
  unfold keepEvent tripleLt evPos
  by_cases hb : e.blockNumber = sB <;> by_cases ht : e.transactionIndex = sT <;>
    simp [hb, ht] <;> omega

/-- C6: processEvents invokes the handlers in the comparator order, the
sorted batch is pairwise ordered by (block, txIndex, logIndex) and,
when positions are pairwise distinct, strictly so; the startDaemon
cursor filter keeps exactly the events strictly past the cursor, so
every filtered event is strictly after the cursor position. -/
theorem c6_ordering_and_cursor_filter :
    (∀ sB sT sL e, keepEvent sB sT sL e = true ↔
      tripleLt (sB, sT, sL) (evPos e) = true) ∧
    (∀ l : List Ev, (processOrder l).Pairwise (fun a b => evLe a b = true)) ∧
    (∀ l : List Ev, l.Pairwise (fun a b => evPos a ≠ evPos b) →
      (processOrder l).Pairwise (fun a b => tripleLt (evPos a) (evPos b) = true)) ∧
    (∀ sB sT sL (l : List Ev) e, e ∈ l.filter (keepEvent sB sT sL) →
      tripleLt (sB, sT, sL) (evPos e) = true) := by
  refine ⟨keepEvent_iff, ?_, ?_, ?_⟩
  · intro l
    exact pairwise_sortByLe evLe evLe_trans evLe_total l
  · intro l h
    have hperm := sortByLe_perm evLe l
    have hne : (processOrder l).Pairwise (fun a b => evPos a ≠ evPos b) := by
      refine (List.Perm.pairwise_iff ?_ hperm).mpr h
      intro x y hxy he
      exact hxy he.symm
    have hle := pairwise_sortByLe evLe evLe_trans evLe_total l
    refine (hne.and hle).imp ?_
    intro a b hab
    exact evLe_ne_implies_lt a b hab.2 hab.1
  · intro sB sT sL l e he
    exact (keepEvent_iff sB sT sL e).mp (List.of_mem_filter he)

/-- C6 witness: the strict-order component applied to a concrete batch
of two out-of-order events with distinct positions. -/
theorem c6_witness :
    (processOrder [{ blockNumber := 2, transactionIndex := 0, logIndex := 0 },
                   { blockNumber := 1, transactionIndex := 0, logIndex := 5 }]).Pairwise
      (fun a b => tripleLt (evPos a) (evPos b) = true) :=
  c6_ordering_and_cursor_filter.2.2.1
    [{ blockNumber := 2, transactionIndex := 0, logIndex := 0 },
     { blockNumber := 1, transactionIndex := 0, logIndex := 5 }]
    (by decide)

/-- C3 counterexample: with a store holding no GSTRoot row at all, the
start-transition handler still persists its Proof row with valid = true
whenever the prover verdict is true: its `valid` is not the conjunction
with referenced-root existence. -/
theorem c3_counterexample_start_transition_ignores_root :
    proofValids (startUSTProofEvent true 1 7 8 9 [] 5 emptyStore) = [true] ∧
    emptyStore.gstRoots = [] := by
  exact ⟨rfl, rfl⟩

/-- C3 (amended): the epoch-key, sign-up, reputation and UST proof
handlers persist valid = verdict AND referenced-GST-root-exists (for
reputation proofs also AND no confirmed duplicate nullifier), while the
start-transition and process-attestations handlers persist
valid = verdict alone, with no root conjunct. -/
theorem c3_proof_row_valid_fields :
    (∀ (isValid : Bool) (pi ep sGST sEp sEK : Nat) (prf : List Nat) (th : Nat)
      (store : Store), ep ≤ (loadCurrentEpoch store).number →
      proofValidsE (epochKeyProofEvent isValid pi ep sGST sEp sEK prf th store) =
        proofValids store ++ [isValid && rootExistsB store ep sGST]) ∧
    (∀ (isValid : Bool) (pi ep sEp sEK sGST sAid sHas : Nat) (prf : List Nat)
      (th : Nat) (store : Store), ep ≤ (loadCurrentEpoch store).number →
      proofValidsE (userSignedUpProofEvent isValid pi ep sEp sEK sGST sAid sHas prf th store) =
        proofValids store ++ [isValid && rootExistsB store ep sGST]) ∧
    (∀ (isValid : Bool) (pi ep : Nat) (repNs : List Nat)
      (sEp sEK sGST sAid sAmt sMin sPG sGP : Nat) (prf : List Nat) (th : Nat)
      (store : Store), ep ≤ (loadCurrentEpoch store).number →
      proofValidsE (reputationProofEvent isValid pi ep repNs sEp sEK sGST sAid
          sAmt sMin sPG sGP prf th store) =
        proofValids store ++ [isValid && rootExistsB store ep sGST &&
          !(findConfirmedDup store (repNs.filter (fun n => n != 0))).isSome]) ∧
    (∀ (isValid : Bool) (pi ngl : Nat) (epkNs : List Nat) (tfe : Nat)
      (bus : List Nat) (fgst : Nat) (bhcs : List Nat) (fet : Nat)
      (recs prf : List Nat) (th : Nat) (store : Store),
      tfe ≤ (loadCurrentEpoch store).number →
      proofValidsE (USTProofEvent isValid pi ngl epkNs tfe bus fgst bhcs fet recs prf th store) =
        proofValids store ++ [isValid && rootExistsB store tfe fgst]) ∧
    (∀ (isValid : Bool) (pi bus gst bhc : Nat) (prf : List Nat) (th : Nat)
      (store : Store),
      proofValids (startUSTProofEvent isValid pi bus gst bhc prf th store) =
        proofValids store ++ [isValid]) ∧
    (∀ (isValid : Bool) (pi iB oB oH : Nat) (prf : List Nat) (th : Nat)
      (store : Store),
      proofValids (processAttestationProofEvent isValid pi iB oB oH prf th store) =
        proofValids store ++ [isValid]) := by
  refine ⟨?_, ?_, ?_, ?_, ?_, ?_⟩
  · intro isValid pi ep sGST sEp sEK prf th store h
    simp [epochKeyProofEvent, GSTRootExists, Nat.not_lt.mpr h, proofValidsE, proofValids]
  · intro isValid pi ep sEp sEK sGST sAid sHas prf th store h
    simp [userSignedUpProofEvent, GSTRootExists, Nat.not_lt.mpr h, proofValidsE, proofValids]
  · intro isValid pi ep repNs sEp sEK sGST sAid sAmt sMin sPG sGP prf th store h
    simp [reputationProofEvent, GSTRootExists, Nat.not_lt.mpr h, proofValidsE, proofValids]
  · intro isValid pi ngl epkNs tfe bus fgst bhcs fet recs prf th store h
    simp [USTProofEvent, GSTRootExists, Nat.not_lt.mpr h, proofValidsE, proofValids]
  · intro isValid pi bus gst bhc prf th store
    simp [startUSTProofEvent, proofValids]
  · intro isValid pi iB oB oH prf th store
    simp [processAttestationProofEvent, proofValids]

/-- C3 witness: the epoch-key component at a concrete store with no
GSTRoot rows, prover verdict true. -/
theorem c3_witness :
    proofValidsE (epochKeyProofEvent true 1 1 8 1 5 [] 7 emptyStore) =
      proofValids emptyStore ++ [true && rootExistsB emptyStore 1 8] :=
  c3_proof_row_valid_fields.1 true 1 1 8 1 5 [] 7 emptyStore (by decide)

/-- C9: whenever the non-zero repNullifiers have no confirmed duplicate,
the reputation handler commits, deletes the unconfirmed rows for those
nullifiers and appends fresh rows for them; the prover verdict and the
root lookup do not guard this mutation (isValid is arbitrary and the
store may lack the referenced root). -/
theorem c9_reputation_mutates_nullifiers_even_when_invalid
    (isValid : Bool) (pi ep : Nat) (repNs : List Nat)
    (sEp sEK sGST sAid sAmt sMin sPG sGP : Nat) (prf : List Nat) (th : Nat)
    (store : Store)
    (hep : ep ≤ (loadCurrentEpoch store).number)
    (hdup : findConfirmedDup store (repNs.filter (fun n => n != 0)) = none) :
    ∃ s', reputationProofEvent isValid pi ep repNs sEp sEK sGST sAid sAmt sMin
        sPG sGP prf th store = .ok s' ∧
      s'.nullifiers =
        store.nullifiers.filter
          (fun n => !((repNs.filter (fun m => m != 0)).contains n.nullifier && !n.confirmed))
        ++ (repNs.filter (fun m => m != 0)).map (newNullifierRow ep) := by
  unfold reputationProofEvent GSTRootExists
  rw [if_neg (Nat.not_lt.mpr hep)]
  refine ⟨_, rfl, ?_⟩
  simp [hdup]

/-- C9 witness: prover verdict false and no GSTRoot row present; the
unconfirmed row for nullifier 40 is replaced by a confirmed one. -/
theorem c9_witness :
    ∃ s', reputationProofEvent false 1 1 [40, 0] 1 5 8 2 0 0 0 0 [] 7
        { emptyStore with nullifiers := [{ epoch := 1, nullifier := 40, confirmed := false }] }
        = .ok s' ∧
      s'.nullifiers =
        ({ emptyStore with
          nullifiers := [{ epoch := 1, nullifier := 40, confirmed := false }] } : Store).nullifiers.filter
            (fun n => !(([40, 0].filter (fun m => m != 0)).contains n.nullifier && !n.confirmed))
        ++ ([40, 0].filter (fun m => m != 0)).map (newNullifierRow 1) :=
  c9_reputation_mutates_nullifiers_even_when_invalid false 1 1 [40, 0] 1 5 8 2 0 0 0 0 [] 7
    { emptyStore with nullifiers := [{ epoch := 1, nullifier := 40, confirmed := false }] }
    (by decide) (by rfl)

/-- C7: for an EpochEnded event on a valid epoch with in-range epoch
keys, the handler commits the Epoch row sealed with the sparse-Merkle
root (default leaf the SMT one-leaf constant) of the map sending each
EpochKey of the epoch to H(1, fold of its valid attestations in
ascending index order under chain = H(attestationHash, chain) from 0),
appends the unsealed stub for epoch + 1, and resets the in-memory GST. -/
theorem epochEnded_ok
    (H : Nat → Nat → Nat) (etd smtOne epoch : Nat) (sync : Sync)
    (hep : epoch ≤ (loadCurrentEpoch sync.store).number)
    (hkeys : ∀ k ∈ sync.store.epochKeys, k.epoch = epoch → k.key < 2 ^ etd) :
    epochEndedEvent H etd smtOne epoch sync =
      .ok { store := { sync.store with
              epochs := upsertEpochSealed epoch
                  (smtRootOfUpdates H etd smtOne
                    ((sync.store.epochKeys.filter (fun k => k.epoch == epoch)).map
                      (fun k => (k.key,
                        H 1 ((sortByLe attIndexLe
                          (sync.store.attestations.filter (fun r =>
                            r.epoch == epoch && r.epochKey == k.key
                              && r.valid == some true))).foldl
                              (fun hc r => H r.hash hc) 0)))))
                  sync.store.epochs
                ++ [{ number := epoch + 1, sealed := false, epochRoot := none }] }
            memGST := [] } := by
  have hany : ((sync.store.epochKeys.filter (fun k => k.epoch == epoch)).any
      (fun k => decide (2 ^ etd ≤ k.key))) = false := by
    rw [List.any_eq_false]
    intro k hk
    have hmem := List.mem_filter.mp hk
    have hkey := hkeys k hmem.1 (by simpa using hmem.2)
    simp
    omega
  simp [epochEndedEvent, genEpochTreeRoot, Nat.not_lt.mpr hep, hany, sealedHashChain]

/-- C7: for an EpochEnded event on a valid epoch with in-range epoch
keys, the handler commits the Epoch row sealed with the sparse-Merkle
root (default leaf the SMT one-leaf constant) of the map sending each
EpochKey of the epoch to H(1, fold of its valid attestations in
ascending index order under chain = H(attestationHash, chain) from 0),
appends the unsealed stub for epoch + 1, and resets the in-memory GST. -/
theorem c7_epoch_ended_builds_sealed_tree
    (H : Nat → Nat → Nat) (etd smtOne epoch : Nat) (sync : Sync)
    (hep : epoch ≤ (loadCurrentEpoch sync.store).number)
    (hkeys : ∀ k ∈ sync.store.epochKeys, k.epoch = epoch → k.key < 2 ^ etd) :
    epochEndedEvent H etd smtOne epoch sync =
      .ok { store := { sync.store with
              epochs := upsertEpochSealed epoch
                  (smtRootOfUpdates H etd smtOne
                    ((sync.store.epochKeys.filter (fun k => k.epoch == epoch)).map
                      (fun k => (k.key,
                        H 1 ((sortByLe attIndexLe
                          (sync.store.attestations.filter (fun r =>
                            r.epoch == epoch && r.epochKey == k.key
                              && r.valid == some true))).foldl
                              (fun hc r => H r.hash hc) 0)))))
                  sync.store.epochs
                ++ [{ number := epoch + 1, sealed := false, epochRoot := none }] }
            memGST := [] } :=
  epochEnded_ok H etd smtOne epoch sync hep hkeys

/-- C7 witness: the theorem at the concrete fixture (epoch 1, depth 2,
default leaf 9). -/
theorem c7_witness :
    epochEndedEvent hc2 2 9 1 c7sync =
      .ok { store := { c7sync.store with
              epochs := upsertEpochSealed 1
                  (smtRootOfUpdates hc2 2 9
                    ((c7sync.store.epochKeys.filter (fun k => k.epoch == 1)).map
                      (fun k => (k.key,
                        hc2 1 ((sortByLe attIndexLe
                          (c7sync.store.attestations.filter (fun r =>
                            r.epoch == 1 && r.epochKey == k.key
                              && r.valid == some true))).foldl
                              (fun hc r => hc2 r.hash hc) 0)))))
                  c7sync.store.epochs
                ++ [{ number := 1 + 1, sealed := false, epochRoot := none }] }
            memGST := [] } :=
  c7_epoch_ended_builds_sealed_tree hc2 2 9 1 c7sync (by decide) (by decide)

theorem filter_unsealed_upsert (epoch root : Nat) (epochs : List EpochRow)
    (hseal : ∀ e ∈ epochs, e.sealed = false → e.number = epoch) :
    (upsertEpochSealed epoch root epochs).filter (fun e => !e.sealed) = [] := by
  rw [List.filter_eq_nil_iff]
  intro e he hf
  have hsf : e.sealed = false := by simpa using hf
  unfold upsertEpochSealed at he
  split at he
  · next hex =>
    rcases List.mem_map.mp he with ⟨e0, he0, heq⟩
    by_cases hnum : e0.number == epoch
    · rw [if_pos hnum] at heq
      rw [← heq] at hsf
      simp at hsf
    · rw [if_neg hnum] at heq
      subst heq
      exact hnum (by simp [hseal e0 he0 hsf])
  · next hex =>
    rcases List.mem_append.mp he with he0 | he0
    · apply hex
      rw [List.any_eq_true]
      exact ⟨e, he0, by simp [hseal e he0 hsf]⟩
    · simp at he0
      rw [he0] at hsf
      simp at hsf

/-- C8: after a committed event the at-most-one-unsealed-Epoch invariant
holds: every handler other than epochEndedEvent leaves the Epoch
collection unchanged, an EpochEnded event on the unsealed epoch seals
it and leaves exactly the fresh stub unsealed, and setup throws when
more than one unsealed Epoch row exists. -/
theorem c8_at_most_one_unsealed_epoch :
    (∀ (h5 : Nat → Nat → Nat → Nat → Nat → Nat) (etd : Nat) (a : AttestationArgs)
      (store s' : Store), attestationEvent h5 etd a store = .ok s' →
      s'.epochs = store.epochs) ∧
    (∀ (H : Nat → Nat → Nat) (gd dl K M ep leaf pi th : Nat) (sync s' : Sync),
      USTEvent H gd dl K M ep leaf pi th sync = .ok s' →
      s'.store.epochs = sync.store.epochs) ∧
    (∀ (H : Nat → Nat → Nat) (gd dl : Nat) (ir : Nat → Nat → Nat)
      (ep idc aid ad th : Nat) (sync s' : Sync),
      userSignedUpEvent H gd dl ir ep idc aid ad th sync = .ok s' →
      s'.store.epochs = sync.store.epochs) ∧
    (∀ (isValid : Bool) (pi ep sGST sEp sEK : Nat) (prf : List Nat) (th : Nat)
      (store s' : Store),
      epochKeyProofEvent isValid pi ep sGST sEp sEK prf th store = .ok s' →
      s'.epochs = store.epochs) ∧
    (∀ (isValid : Bool) (pi ep sEp sEK sGST sAid sHas : Nat) (prf : List Nat)
      (th : Nat) (store s' : Store),
      userSignedUpProofEvent isValid pi ep sEp sEK sGST sAid sHas prf th store = .ok s' →
      s'.epochs = store.epochs) ∧
    (∀ (isValid : Bool) (pi ep : Nat) (repNs : List Nat)
      (sEp sEK sGST sAid sAmt sMin sPG sGP : Nat) (prf : List Nat) (th : Nat)
      (store s' : Store),
      reputationProofEvent isValid pi ep repNs sEp sEK sGST sAid sAmt sMin sPG sGP
        prf th store = .ok s' → s'.epochs = store.epochs) ∧
    (∀ (isValid : Bool) (pi ngl : Nat) (epkNs : List Nat) (tfe : Nat)
      (bus : List Nat) (fgst : Nat) (bhcs : List Nat) (fet : Nat)
      (recs prf : List Nat) (th : Nat) (store s' : Store),
      USTProofEvent isValid pi ngl epkNs tfe bus fgst bhcs fet recs prf th store = .ok s' →
      s'.epochs = store.epochs) ∧
    (∀ (isValid : Bool) (pi bus gst bhc : Nat) (prf : List Nat) (th : Nat)
      (store : Store),
      (startUSTProofEvent isValid pi bus gst bhc prf th store).epochs = store.epochs) ∧
    (∀ (isValid : Bool) (pi iB oB oH : Nat) (prf : List Nat) (th : Nat)
      (store : Store),
      (processAttestationProofEvent isValid pi iB oB oH prf th store).epochs = store.epochs) ∧
    (∀ (H : Nat → Nat → Nat) (etd smtOne epoch : Nat) (sync : Sync),
      (∀ e ∈ sync.store.epochs, e.sealed = false → e.number = epoch) →
      epoch ≤ (loadCurrentEpoch sync.store).number →
      (∀ k ∈ sync.store.epochKeys, k.epoch = epoch → k.key < 2 ^ etd) →
      ∃ s', epochEndedEvent H etd smtOne epoch sync = .ok s' ∧
        unsealedCount s'.store = 1) ∧
    (∀ store : Store, 2 ≤ unsealedCount store →
      setup store = .error SyncErr.multipleUnsealed) := by
  refine ⟨?_, ?_, ?_, ?_, ?_, ?_, ?_, ?_, ?_, ?_, ?_⟩
  · intro h5 etd a store s' h
    simp only [attestationEvent] at h
    repeat' split at h
    all_goals try simp_all
    all_goals (subst h; rfl)
  · intro H gd dl K M ep leaf pi th sync s' h
    simp only [USTEvent] at h
    repeat' split at h
    all_goals try simp_all
    all_goals (subst h; rfl)
  · intro H gd dl ir ep idc aid ad th sync s' h
    simp only [userSignedUpEvent] at h
    repeat' split at h
    all_goals try simp_all
    all_goals (subst h; rfl)
  · intro isValid pi ep sGST sEp sEK prf th store s' h
    simp only [epochKeyProofEvent] at h
    repeat' split at h
    all_goals try simp_all
    all_goals (subst h; rfl)
  · intro isValid pi ep sEp sEK sGST sAid sHas prf th store s' h
    simp only [userSignedUpProofEvent] at h
    repeat' split at h
    all_goals try simp_all
    all_goals (subst h; rfl)
  · intro isValid pi ep repNs sEp sEK sGST sAid sAmt sMin sPG sGP prf th store s' h
    simp only [reputationProofEvent] at h
    repeat' split at h
    all_goals try simp_all
    all_goals (subst h; rfl)
  · intro isValid pi ngl epkNs tfe bus fgst bhcs fet recs prf th store s' h
    simp only [USTProofEvent] at h
    repeat' split at h
    all_goals try simp_all
    all_goals (subst h; rfl)
  · intro isValid pi bus gst bhc prf th store
    rfl
  · intro isValid pi iB oB oH prf th store
    rfl
  · intro H etd smtOne epoch sync hseal hep hkeys
    refine ⟨_, epochEnded_ok H etd smtOne epoch sync hep hkeys, ?_⟩
    unfold unsealedCount
    rw [List.filter_append, filter_unsealed_upsert _ _ _ hseal]
    rfl
  · intro store h
    unfold setup
    rw [if_pos]
    unfold unsealedCount at h
    omega

/-- C8 witness: the EpochEnded component at the concrete fixture (one
unsealed epoch, number 1) and the setup component at a store with two
unsealed epochs. -/
theorem c8_witness :
    (∃ s', epochEndedEvent hc2 2 9 1 c7sync = .ok s' ∧ unsealedCount s'.store = 1) ∧
    setup { emptyStore with
      epochs := [{ number := 1, sealed := false, epochRoot := none },
                 { number := 2, sealed := false, epochRoot := none }] }
      = .error SyncErr.multipleUnsealed :=
  ⟨c8_at_most_one_unsealed_epoch.2.2.2.2.2.2.2.2.2.1 hc2 2 9 1 c7sync
      (by decide) (by decide) (by decide),
    c8_at_most_one_unsealed_epoch.2.2.2.2.2.2.2.2.2.2 _ (by decide)⟩

end Unirep
